import Mathlib

/-!
Verification of the conversation-history slice of the ai-calendar-assistant
backend: the in-memory document store used by the tests (the mock Firestore),
the ConversationHistory model, the history service, the history controller,
and the agent proxy error mapping.

Timestamps are modelled as natural numbers. The code stores them as ISO-8601
strings produced by Date.toISOString, whose lexicographic order agrees with
chronological order, so order-sensitive operations (sorting by updatedAt,
comparing updatedAt with createdAt) transfer unchanged.
-/

/-- A stored chat message. The model layer projects caller input onto exactly
these three fields (ConversationHistory.create and appendMessages both build
the object with role, content and timestamp and nothing else). -/
structure Message where
  role : String
  content : String
  timestamp : Nat
deriving DecidableEq

/-- A caller-supplied message: role, content, an optional timestamp (the code
applies timestamp-or-now), and extra fields standing for anything else the
caller put on the object, which the model layer never reads. -/
structure InMsg where
  role : String
  content : String
  timestamp : Option Nat := none
  extra : List (String × String) := []
deriving DecidableEq

/-- The stored metadata object. -/
structure Metadata where
  source : String
  agentModel : Option String
deriving DecidableEq

/-- Caller-supplied metadata; either field may be absent. -/
structure MetaInput where
  source : Option String := none
  agentModel : Option String := none
deriving DecidableEq

/-- A conversation document as persisted (the store key lives outside it). -/
structure Doc where
  sessionId : String
  userId : String
  messages : List Message
  metadata : Metadata
  createdAt : Nat
  updatedAt : Nat
deriving DecidableEq

/-- A record as returned to callers: the document plus its id. -/
structure ConvRecord where
  id : String
  data : Doc
deriving DecidableEq

/-- The in-memory mock Firestore: the documents of the conversations
collection as (id, document) pairs in insertion order (JS object key order
for non-index keys), plus the counter behind the generated mock ids. -/
structure FirestoreState where
  docs : List (String × Doc)
  idCounter : Nat
deriving DecidableEq

/-- The store as reset by clearStore. -/
def emptyStore : FirestoreState := ⟨[], 0⟩

/-- JS string-or-default: the empty string is falsy, so it also falls back. -/
def jsOrString (s : Option String) (d : String) : String :=
  match s with
  | none => d
  | some s => if s.isEmpty then d else s

/-- JS string-or-null: a falsy value (absent or empty) becomes null. -/
def jsOrNull (s : Option String) : Option String :=
  match s with
  | none => none
  | some s => if s.isEmpty then none else some s

/-- How JS Array.prototype.slice resolves one index against a length:
negative indices count from the end, and the result is clamped to the
interval from 0 to the length. -/
def jsClamp (i len : Int) : Int :=
  if i < 0 then max (len + i) 0 else min i len

/-- JS Array.prototype.slice with integer arguments: the run from the
resolved start (inclusive) to the resolved stop (exclusive). -/
def jsSlice {α : Type} (l : List α) (start stop : Int) : List α :=
  (l.take (jsClamp stop l.length).toNat).drop (jsClamp start l.length).toNat

namespace ConversationHistory

/-- The message projection both create and appendMessages apply:
role and content are copied, timestamp defaults to the current time. -/
def stampMessage (now : Nat) (m : InMsg) : Message :=
  ⟨m.role, m.content, m.timestamp.getD now⟩

/-- The argument object of create and of the service createConversation. -/
structure CreateInput where
  sessionId : String
  userId : String
  messages : Option (List InMsg) := none
  metadata : Option MetaInput := none
deriving DecidableEq

/-- The stored metadata source: metadata-and-source, defaulting to web. -/
def metaSource (m : Option MetaInput) : String :=
  match m with
  | none => "web"
  | some mi => jsOrString mi.source "web"

/-- The stored agent model: metadata-and-agentModel, defaulting to null. -/
def metaAgentModel (m : Option MetaInput) : Option String :=
  match m with
  | none => none
  | some mi => jsOrNull mi.agentModel

/-- ConversationHistory.create over the mock store: build the document with
stamped messages, defaulted metadata and equal timestamps, add it under the
next generated id, and return it with that id. -/
def create (st : FirestoreState) (data : CreateInput) (now : Nat) :
    ConvRecord × FirestoreState :=
  let doc : Doc :=
    { sessionId := data.sessionId
      userId := data.userId
      messages := (data.messages.getD []).map (stampMessage now)
      metadata := ⟨metaSource data.metadata, metaAgentModel data.metadata⟩
      createdAt := now
      updatedAt := now }
  let id := "mock-id-" ++ toString (st.idCounter + 1)
  (⟨id, doc⟩, ⟨st.docs ++ [(id, doc)], st.idCounter + 1⟩)

/-- ConversationHistory.findById: key lookup, none when absent. -/
def findById (st : FirestoreState) (id : String) : Option ConvRecord :=
  (st.docs.find? (fun p => p.1 == id)).map (fun p => ⟨p.1, p.2⟩)

/-- The docs matching the owner filter, in insertion order
(the where-userId-equals query of findByUserId). -/
def ownerDocs (st : FirestoreState) (userId : String) : List (String × Doc) :=
  st.docs.filter (fun p => p.2.userId == userId)

/-- The orderBy-updatedAt-descending step of the mock query: a stable sort
whose comparator puts larger updatedAt first and keeps ties in order. -/
def sortByUpdatedAtDesc (l : List (String × Doc)) : List (String × Doc) :=
  l.mergeSort (fun a b => decide (b.2.updatedAt ≤ a.2.updatedAt))

/-- ConversationHistory.findByUserId over the mock store: filter by owner,
stable-sort by updatedAt descending, slice out the requested page, and run
the owner count query for the unpaginated total. -/
def findByUserId (st : FirestoreState) (userId : String) (page limit : Int) :
    List ConvRecord × Nat :=
  let offset := (page - 1) * limit
  let sorted := sortByUpdatedAtDesc (ownerDocs st userId)
  ((jsSlice sorted offset (offset + limit)).map (fun p => ⟨p.1, p.2⟩),
   (ownerDocs st userId).length)

/-- ConversationHistory.appendMessages: look the document up; if absent
return none leaving the store untouched; otherwise apply the mock arrayUnion
update (plain concatenation, no dedup), refresh updatedAt, and return the
re-read record. The document keeps its slot in the store. -/
def appendMessages (st : FirestoreState) (id : String) (msgs : List InMsg)
    (now : Nat) : Option ConvRecord × FirestoreState :=
  match st.docs.find? (fun p => p.1 == id) with
  | none => (none, st)
  | some p =>
    let d : Doc := { p.2 with
      messages := p.2.messages ++ msgs.map (stampMessage now)
      updatedAt := now }
    (some ⟨p.1, d⟩,
     ⟨st.docs.map (fun q => if q.1 == id then (q.1, d) else q), st.idCounter⟩)

end ConversationHistory

/-- The domain error carried by next(err): an HTTP status and a message. -/
structure ApiError where
  statusCode : Nat
  message : String
deriving DecidableEq

/-- The pagination object built by the service. -/
structure Pagination where
  page : Int
  limit : Int
  total : Nat
  pages : Int
deriving DecidableEq

/-- The list endpoint result: conversations plus pagination. -/
structure ListResult where
  conversations : List ConvRecord
  pagination : Pagination
deriving DecidableEq

/-- Math.ceil of total divided by limit, on exact rationals. For the
regime the service is called in (limit at least 1) this is exactly the JS
value; for limit 0 the JS value is Infinity, which has no counterpart here
and is never produced thanks to the controller defaults. -/
def jsCeilDiv (total : Nat) (limit : Int) : Int :=
  ⌈(total : ℚ) / (limit : ℚ)⌉

namespace HistoryService

open ConversationHistory

/-- historyService.createConversation: fill in messages-or-empty and
metadata-or-empty, then delegate to the model create. -/
def createConversation (st : FirestoreState) (inp : CreateInput) (now : Nat) :
    ConvRecord × FirestoreState :=
  create st
    { inp with
      messages := some (inp.messages.getD [])
      metadata := some (inp.metadata.getD {}) } now

/-- historyService.listConversations: delegate to findByUserId and wrap the
result with the pagination object, pages being Math.ceil of total/limit. -/
def listConversations (st : FirestoreState) (userId : String)
    (page limit : Int) : ListResult :=
  let r := findByUserId st userId page limit
  ⟨r.1, ⟨page, limit, r.2, jsCeilDiv r.2 limit⟩⟩

/-- historyService.appendMessages: translate the model null into a 404
domain error, otherwise pass the updated record through. -/
def appendMessages (st : FirestoreState) (id : String) (msgs : List InMsg)
    (now : Nat) : Except ApiError ConvRecord × FirestoreState :=
  match ConversationHistory.appendMessages st id msgs now with
  | (none, st) => (.error ⟨404, "Conversation not found"⟩, st)
  | (some c, st) => (.ok c, st)

end HistoryService

/-- The messages field of a PUT /history/:id body as the controller sees it. -/
inductive BodyMessages where
  /-- the field is absent from the body, or holds a falsy value. -/
  | missing
  /-- the field holds a truthy value that is not an array. -/
  | notArray
  /-- the field holds an array of messages. -/
  | array (msgs : List InMsg)
deriving DecidableEq

namespace HistoryController

/-- historyController.update (PUT /history/:id): a missing, non-array or
empty messages body is rejected with 400 before the service runs; otherwise
the service appendMessages result (200 record or 404 error) is passed on. -/
def update (st : FirestoreState) (id : String) (body : BodyMessages)
    (now : Nat) : Except ApiError ConvRecord × FirestoreState :=
  match body with
  | .array msgs =>
    if msgs.isEmpty then
      (.error ⟨400, "messages array is required and must not be empty"⟩, st)
    else HistoryService.appendMessages st id msgs now
  | _ => (.error ⟨400, "messages array is required and must not be empty"⟩, st)

/-- The numeric value of a run of decimal digits, most significant first. -/
def digitsVal (ds : List Char) : Nat :=
  ds.foldl (fun a c => a * 10 + (c.toNat - 48)) 0

/-- JS parseInt with radix 10: skip leading whitespace, read an optional
sign and then a leading run of decimal digits, ignoring any trailing
characters; none is NaN (no digits at all, or an absent argument). -/
def jsParseInt (s : String) : Option Int :=
  let cs := s.data.dropWhile Char.isWhitespace
  let signed : Int × List Char :=
    match cs with
    | '-' :: r => (-1, r)
    | '+' :: r => (1, r)
    | r => (1, r)
  let ds := signed.2.takeWhile Char.isDigit
  if ds.isEmpty then none else some (signed.1 * digitsVal ds)

/-- parseInt-or-default as the list controller applies it to a query
parameter: an absent parameter and NaN fall back, and so does 0 because 0
is falsy in JS. -/
def parseIntOr (q : Option String) (d : Int) : Int :=
  match q with
  | none => d
  | some s =>
    match jsParseInt s with
    | none => d
    | some n => if n = 0 then d else n

/-- historyController.list (GET /history): a missing or empty userId query
parameter is a 400; otherwise the service runs with the parsed page and
limit, defaulting to 1 and 20. -/
def list (st : FirestoreState) (userIdQ pageQ limitQ : Option String) :
    Except ApiError ListResult :=
  match userIdQ with
  | none => .error ⟨400, "userId query parameter is required"⟩
  | some u =>
    if u.isEmpty then .error ⟨400, "userId query parameter is required"⟩
    else .ok (HistoryService.listConversations st u
      (parseIntOr pageQ 1) (parseIntOr limitQ 20))

/-- A query parameter that makes the controller fall back to the default:
absent, non-numeric (NaN), or parsing to 0. -/
def defaulted (q : Option String) : Prop :=
  match q with
  | none => True
  | some s => jsParseInt s = none ∨ jsParseInt s = some 0

end HistoryController

/-- The outcome of the axios call made by the agent proxy. -/
inductive UpstreamOutcome where
  /-- a response arrived carrying an error status; errMsg is the
  data-error-message path of the response body, none when absent. -/
  | httpError (status : Nat) (errMsg : Option String)
  /-- no response at all: connection refused, timeout, DNS failure. -/
  | transportError
  /-- a successful response whose body is data. -/
  | success (data : String)
deriving DecidableEq

namespace AgentService

/-- agentService.chat error mapping: an upstream HTTP error is re-thrown
with the upstream status and the upstream message (or the fixed fallback
when that message is absent or empty); anything without a response becomes
the fixed 502. -/
def chat (r : UpstreamOutcome) : Except ApiError String :=
  match r with
  | .success d => .ok d
  | .httpError status errMsg => .error ⟨status, jsOrString errMsg "Agent Server error"⟩
  | .transportError => .error ⟨502, "Agent Server unavailable"⟩

/-- agentService.getStatus error mapping: the catch block ignores the error
entirely, so every failure, including an upstream HTTP error response, maps
to the fixed 502. -/
def getStatus (r : UpstreamOutcome) : Except ApiError String :=
  match r with
  | .success d => .ok d
  | _ => .error ⟨502, "Agent Server unavailable"⟩

end AgentService

/-- A mutating history operation, for reasoning about operation sequences. -/
inductive HistOp where
  /-- a service createConversation call. -/
  | createOp (inp : ConversationHistory.CreateInput)
  /-- a service appendMessages call. -/
  | appendOp (id : String) (msgs : List InMsg)

/-- Run one operation at one instant and keep the resulting store. -/
def execOp (st : FirestoreState) (op : HistOp) (now : Nat) : FirestoreState :=
  match op with
  | .createOp inp => (HistoryService.createConversation st inp now).2
  | .appendOp id msgs => (HistoryService.appendMessages st id msgs now).2

/-- Run a timed operation sequence from a starting store. -/
def execTrace (st : FirestoreState) (ops : List (HistOp × Nat)) :
    FirestoreState :=
  ops.foldl (fun s p => execOp s p.1 p.2) st

/-- A caller message with its extra fields removed (same role, content and
timestamp); used to state that the model never reads the extra fields. -/
def eraseExtra (m : InMsg) : InMsg := { m with extra := [] }

/-- Every stored document has createdAt at most updatedAt, and updatedAt at
most the given instant: the inductive invariant for operation sequences. -/
def storeInv (st : FirestoreState) (t : Nat) : Prop :=
  ∀ p ∈ st.docs, p.2.createdAt ≤ p.2.updatedAt ∧ p.2.updatedAt ≤ t

/-! ## Theorems -/

/-- The store component of the service appendMessages is the store component
of the model appendMessages, whichever branch is taken. -/
theorem serviceAppend_snd (st : FirestoreState) (id : String)
    (msgs : List InMsg) (now : Nat) :
    (HistoryService.appendMessages st id msgs now).2 =
      (ConversationHistory.appendMessages st id msgs now).2 := by
  unfold HistoryService.appendMessages
  rcases h : ConversationHistory.appendMessages st id msgs now with ⟨o, st'⟩
  cases o <;> simp

/-- C5: appending through the service to an id that does not identify an
existing conversation fails with the 404 NotFound domain error and returns
the store exactly as it was, so no record is created as a side effect. -/
theorem HistoryService.appendMessages_notFound (st : FirestoreState)
    (id : String) (msgs : List InMsg) (now : Nat)
    (h : ConversationHistory.findById st id = none) :
    HistoryService.appendMessages st id msgs now =
      (.error ⟨404, "Conversation not found"⟩, st) := by
  have hf : st.docs.find? (fun p => p.1 == id) = none := by
    unfold ConversationHistory.findById at h
    exact Option.map_eq_none.mp h
  unfold HistoryService.appendMessages ConversationHistory.appendMessages
  rw [hf]

/-- Witness for C5 at a concrete input: the empty store has no record x. -/
theorem HistoryService.appendMessages_notFound_witness :
    ConversationHistory.findById emptyStore "x" = none ∧
    HistoryService.appendMessages emptyStore "x" [] 0 =
      (.error ⟨404, "Conversation not found"⟩, emptyStore) :=
  ⟨by decide, HistoryService.appendMessages_notFound emptyStore "x" [] 0 (by decide)⟩

/-- C6: a PUT /history/:id body whose messages field is missing, not an
array, or an empty array is answered with 400 and the store is returned
unchanged; the service branch of the controller is never reached. -/
theorem HistoryController.update_badRequest (st : FirestoreState)
    (id : String) (body : BodyMessages) (now : Nat)
    (h : body = .missing ∨ body = .notArray ∨ body = .array []) :
    HistoryController.update st id body now =
      (.error ⟨400, "messages array is required and must not be empty"⟩, st) := by
  rcases h with h | h | h <;> subst h <;> rfl

/-- Witness for C6 at a concrete input: the empty messages array. -/
theorem HistoryController.update_badRequest_witness :
    HistoryController.update emptyStore "x" (.array []) 0 =
      (.error ⟨400, "messages array is required and must not be empty"⟩,
        emptyStore) :=
  HistoryController.update_badRequest emptyStore "x" (.array []) 0
    (Or.inr (Or.inr rfl))

/-- Counterexample to C7 as stated, at two concrete upstream HTTP error
responses: when the upstream answers the status probe with an HTTP 500
error response, getStatus does not relay the 500 but reports the fixed 502
unavailable error; and when the upstream error body carries the empty
message, chat does not relay it verbatim but substitutes the fixed
message. -/
theorem AgentService.error_relay_counterexample :
    (AgentService.getStatus (.httpError 500 (some "boom")) =
      .error ⟨502, "Agent Server unavailable"⟩ ∧ (502 : Nat) ≠ 500) ∧
    (AgentService.chat (.httpError 500 (some "")) =
      .error ⟨500, "Agent Server error"⟩ ∧
      ("Agent Server error" : String) ≠ "") :=
  ⟨⟨rfl, by decide⟩, ⟨rfl, by decide⟩⟩

/-- C7 as amended: on transport failure both endpoints report the fixed 502
unavailable error; on an upstream HTTP error response with any message
shape, chat fails with exactly the upstream status, relaying a present
non-empty upstream message verbatim and substituting the fixed message when
the upstream message is absent or empty, while getStatus maps every
failure, including every upstream HTTP error response, to the fixed 502. -/
theorem AgentService.error_mapping (status : Nat) (errMsg : Option String) :
    AgentService.chat .transportError =
      .error ⟨502, "Agent Server unavailable"⟩ ∧
    AgentService.getStatus .transportError =
      .error ⟨502, "Agent Server unavailable"⟩ ∧
    AgentService.getStatus (.httpError status errMsg) =
      .error ⟨502, "Agent Server unavailable"⟩ ∧
    (∀ m : String, errMsg = some m → m ≠ "" →
      AgentService.chat (.httpError status errMsg) = .error ⟨status, m⟩) ∧
    (errMsg = none ∨ errMsg = some "" →
      AgentService.chat (.httpError status errMsg) =
        .error ⟨status, "Agent Server error"⟩) := by
  refine ⟨rfl, rfl, rfl, ?_, ?_⟩
  · intro m hm hne
    subst hm
    simp [AgentService.chat, jsOrString, String.isEmpty_iff, hne]
  · rintro (h | h) <;> subst h <;> rfl

/-- Witness for the amended C7, discharging each hypothesis at a concrete
upstream error: a non-empty message is relayed by chat, an empty one is
substituted, and getStatus reports the fixed 502 on the same error. -/
theorem AgentService.error_mapping_witness :
    AgentService.chat (.httpError 503 (some "boom")) =
      .error ⟨503, "boom"⟩ ∧
    AgentService.chat (.httpError 503 (some "")) =
      .error ⟨503, "Agent Server error"⟩ ∧
    AgentService.getStatus (.httpError 503 (some "boom")) =
      .error ⟨502, "Agent Server unavailable"⟩ :=
  ⟨(AgentService.error_mapping 503 (some "boom")).2.2.2.1 "boom" rfl
      (by decide),
   (AgentService.error_mapping 503 (some "")).2.2.2.2 (Or.inr rfl),
   (AgentService.error_mapping 503 (some "boom")).2.2.1⟩

/-- C4: creating through the service with no messages stores an empty
message sequence (a present field), with no metadata source stores the
source web, and returns the record carrying the store-generated id and the
assigned timestamps; the stored document is exactly the returned one. -/
theorem HistoryService.createConversation_defaults (st : FirestoreState)
    (inp : ConversationHistory.CreateInput) (now : Nat) :
    (inp.messages = none →
      (HistoryService.createConversation st inp now).1.data.messages = []) ∧
    (inp.metadata.bind MetaInput.source = none →
      (HistoryService.createConversation st inp now).1.data.metadata.source =
        "web") ∧
    (HistoryService.createConversation st inp now).1.id =
      "mock-id-" ++ toString (st.idCounter + 1) ∧
    (HistoryService.createConversation st inp now).1.data.createdAt = now ∧
    (HistoryService.createConversation st inp now).1.data.updatedAt = now ∧
    (HistoryService.createConversation st inp now).2.docs =
      st.docs ++ [((HistoryService.createConversation st inp now).1.id,
        (HistoryService.createConversation st inp now).1.data)] := by
  refine ⟨?_, ?_, rfl, rfl, rfl, rfl⟩
  · intro hmsg
    simp [HistoryService.createConversation, ConversationHistory.create, hmsg]
  · intro hsrc
    have hsource :
        ConversationHistory.metaSource (some (inp.metadata.getD {})) =
          "web" := by
      cases h : inp.metadata with
      | none => rfl
      | some mi =>
        rw [h] at hsrc
        have hs : mi.source = none := hsrc
        simp [ConversationHistory.metaSource, Option.getD, hs, jsOrString]
    simp [HistoryService.createConversation, ConversationHistory.create,
      hsource]

/-- Witness for C4 at a concrete input with no messages and no metadata. -/
theorem HistoryService.createConversation_defaults_witness :
    (⟨"s1", "u1", none, none⟩ :
        ConversationHistory.CreateInput).messages = none ∧
    (HistoryService.createConversation emptyStore
        ⟨"s1", "u1", none, none⟩ 7).1.data.messages = [] ∧
    (HistoryService.createConversation emptyStore
        ⟨"s1", "u1", none, none⟩ 7).1.data.metadata.source = "web" :=
  have h := HistoryService.createConversation_defaults emptyStore
    ⟨"s1", "u1", none, none⟩ 7
  ⟨rfl, h.1 rfl, h.2.1 rfl⟩

/-- C9: both create and appendMessages store, for each caller message,
exactly the role, the content and the timestamp (defaulted to the call
instant when absent), dropping every other caller-supplied field; and all
messages of one call lacking a timestamp get the same instant. -/
theorem ConversationHistory.message_projection (st : FirestoreState)
    (id : String) (now : Nat) (inp : ConversationHistory.CreateInput)
    (msgs : List InMsg) :
    (∀ m : InMsg, ConversationHistory.stampMessage now m =
      ⟨m.role, m.content, m.timestamp.getD now⟩) ∧
    ConversationHistory.create st
        { inp with messages := some (msgs.map eraseExtra) } now =
      ConversationHistory.create st { inp with messages := some msgs } now ∧
    ConversationHistory.appendMessages st id (msgs.map eraseExtra) now =
      ConversationHistory.appendMessages st id msgs now ∧
    (∀ m ∈ msgs, m.timestamp = none →
      ConversationHistory.stampMessage now m = ⟨m.role, m.content, now⟩) := by
  have hmap : (msgs.map eraseExtra).map (ConversationHistory.stampMessage now) =
      msgs.map (ConversationHistory.stampMessage now) := by
    rw [List.map_map]
    rfl
  refine ⟨fun m => rfl, ?_, ?_, ?_⟩
  · simp [ConversationHistory.create, hmap]
  · simp [ConversationHistory.appendMessages, hmap]
  · intro m _ ht
    simp [ConversationHistory.stampMessage, ht]

/-- Witness for C9 at a concrete message carrying an extra field and no
timestamp. -/
theorem ConversationHistory.message_projection_witness :
    (⟨"user", "hi", none, [("a", "b")]⟩ : InMsg) ∈
      [(⟨"user", "hi", none, [("a", "b")]⟩ : InMsg)] ∧
    ConversationHistory.stampMessage 5 ⟨"user", "hi", none, [("a", "b")]⟩ =
      ⟨"user", "hi", 5⟩ :=
  ⟨by decide,
    (ConversationHistory.message_projection emptyStore "x" 5
        ⟨"s", "u", none, none⟩ [⟨"user", "hi", none, [("a", "b")]⟩]).2.2.2
      ⟨"user", "hi", none, [("a", "b")]⟩ (by decide) rfl⟩

/-- C10: a page or limit query parameter that is absent, non-numeric, or
parses to 0 makes the controller use the default (1 for page, 20 for
limit); the parsed limit is never 0, and the controller hands exactly the
parsed values to the service. -/
theorem HistoryController.list_defaults (st : FirestoreState) (u : String)
    (pageQ limitQ : Option String) (hu : u.isEmpty = false) :
    (HistoryController.defaulted pageQ →
      HistoryController.parseIntOr pageQ 1 = 1) ∧
    (HistoryController.defaulted limitQ →
      HistoryController.parseIntOr limitQ 20 = 20) ∧
    HistoryController.parseIntOr limitQ 20 ≠ 0 ∧
    HistoryController.list st (some u) pageQ limitQ =
      .ok (HistoryService.listConversations st u
        (HistoryController.parseIntOr pageQ 1)
        (HistoryController.parseIntOr limitQ 20)) := by
  have hdef : ∀ (q : Option String) (d : Int), HistoryController.defaulted q →
      HistoryController.parseIntOr q d = d := by
    intro q d hq
    cases q with
    | none => rfl
    | some s =>
      rcases hq with h | h <;>
        simp [HistoryController.parseIntOr, h]
  refine ⟨hdef pageQ 1, hdef limitQ 20, ?_, ?_⟩
  · cases limitQ with
    | none => decide
    | some s =>
      simp only [HistoryController.parseIntOr]
      rcases h : HistoryController.jsParseInt s with _ | n
      · decide
      · by_cases hn : n = 0 <;> simp [hn]
  · simp [HistoryController.list, hu]

/-- Witness for C10 at a concrete request: page parses to 0 and limit is a
non-numeric string. -/
theorem HistoryController.list_defaults_witness :
    "u1".isEmpty = false ∧
    HistoryController.defaulted (some "0") ∧
    HistoryController.defaulted (some "abc") ∧
    HistoryController.parseIntOr (some "0") 1 = 1 ∧
    HistoryController.parseIntOr (some "abc") 20 = 20 :=
  have h := HistoryController.list_defaults emptyStore "u1"
    (some "0") (some "abc") (by decide)
  have hp : HistoryController.defaulted (some "0") := Or.inr (by decide)
  have hl : HistoryController.defaulted (some "abc") := Or.inl (by decide)
  ⟨by decide, hp, hl, h.1 hp, h.2.1 hl⟩

/-- C1: appending a non-empty batch to an existing conversation succeeds,
the stored sequence becomes the old one followed by the stamped new
messages with no deduplication (so the count grows by exactly the number
appended), and updatedAt moves to the call instant, at or after its
previous value. -/
theorem ConversationHistory.appendMessages_existing (st : FirestoreState)
    (id : String) (msgs : List InMsg) (now : Nat) (c : ConvRecord)
    (hfind : ConversationHistory.findById st id = some c)
    (hne : msgs ≠ []) (hclock : c.data.updatedAt ≤ now) :
    ∃ c' st',
      ConversationHistory.appendMessages st id msgs now = (some c', st') ∧
      c'.data.messages =
        c.data.messages ++ msgs.map (ConversationHistory.stampMessage now) ∧
      c'.data.messages.length = c.data.messages.length + msgs.length ∧
      c'.data.updatedAt = now ∧
      c.data.updatedAt ≤ c'.data.updatedAt := by
  unfold ConversationHistory.findById at hfind
  rcases hf : st.docs.find? (fun p => p.1 == id) with _ | p
  · rw [hf] at hfind; simp at hfind
  · rw [hf] at hfind
    have hc : c = ⟨p.1, p.2⟩ := (Option.some.inj hfind).symm
    subst hc
    refine ⟨⟨p.1, { p.2 with
        messages :=
          p.2.messages ++ msgs.map (ConversationHistory.stampMessage now),
        updatedAt := now }⟩,
      ⟨st.docs.map (fun q => if q.1 == id then
          (q.1, { p.2 with
            messages :=
              p.2.messages ++ msgs.map (ConversationHistory.stampMessage now),
            updatedAt := now })
        else q), st.idCounter⟩, ?_, rfl, by simp, rfl, hclock⟩
    unfold ConversationHistory.appendMessages
    rw [hf]

/-- Witness for C1: one stored conversation with one message receives two
more at a later instant. -/
theorem ConversationHistory.appendMessages_existing_witness :
    ConversationHistory.findById
        (ConversationHistory.create emptyStore
          ⟨"s1", "u1", some [⟨"user", "Hello", none, []⟩], none⟩ 3).2
        "mock-id-1" =
      some ⟨"mock-id-1",
        ⟨"s1", "u1", [⟨"user", "Hello", 3⟩], ⟨"web", none⟩, 3, 3⟩⟩ ∧
    ([⟨"assistant", "Hi", none, []⟩, ⟨"user", "More", none, []⟩] :
      List InMsg) ≠ [] ∧
    ∃ c' st',
      ConversationHistory.appendMessages
          (ConversationHistory.create emptyStore
            ⟨"s1", "u1", some [⟨"user", "Hello", none, []⟩], none⟩ 3).2
          "mock-id-1"
          [⟨"assistant", "Hi", none, []⟩, ⟨"user", "More", none, []⟩] 9 =
        (some c', st') ∧
      c'.data.messages =
        [⟨"user", "Hello", 3⟩] ++
          ([⟨"assistant", "Hi", none, []⟩, ⟨"user", "More", none, []⟩] :
            List InMsg).map (ConversationHistory.stampMessage 9) ∧
      c'.data.messages.length = 1 + 2 ∧
      c'.data.updatedAt = 9 ∧
      (3 : Nat) ≤ c'.data.updatedAt := by
  refine ⟨by decide, by decide, ?_⟩
  have h := ConversationHistory.appendMessages_existing
    (ConversationHistory.create emptyStore
      ⟨"s1", "u1", some [⟨"user", "Hello", none, []⟩], none⟩ 3).2
    "mock-id-1"
    [⟨"assistant", "Hi", none, []⟩, ⟨"user", "More", none, []⟩] 9
    ⟨"mock-id-1", ⟨"s1", "u1", [⟨"user", "Hello", 3⟩], ⟨"web", none⟩, 3, 3⟩⟩
    (by decide) (by decide) (by decide)
  rcases h with ⟨c', st', h1, h2, h3, h4, h5⟩
  exact ⟨c', st', h1, h2, h3, h4, h4 ▸ by decide⟩

/-- For a slice starting at a non-negative index with a non-negative width,
the JS slice is drop-then-take. -/
theorem jsSlice_eq_drop_take {α : Type} (l : List α) (start k : Int)
    (hs : 0 ≤ start) (hk : 0 ≤ k) :
    jsSlice l start (start + k) = (l.drop start.toNat).take k.toNat := by
  unfold jsSlice jsClamp
  rw [if_neg (by omega : ¬ start + k < 0), if_neg (by omega : ¬ start < 0)]
  rcases le_or_lt start (l.length : Int) with hA | hB
  · rw [min_eq_left hA]
    rcases le_or_lt (start + k) (l.length : Int) with hC | hC
    · rw [min_eq_left hC, List.drop_take]
      congr 1
      omega
    · rw [min_eq_right hC.le, List.drop_take]
      rw [List.take_of_length_le, List.take_of_length_le]
      · rw [List.length_drop]; omega
      · rw [List.length_drop]; omega
  · rw [min_eq_right hB.le,
      min_eq_right (by omega : (l.length : Int) ≤ start + k), List.drop_take]
    have h0 : ((l.length : Int).toNat - (l.length : Int).toNat) = 0 := by omega
    rw [h0, List.take_zero, List.drop_eq_nil_of_le (by omega), List.take_nil]

/-- A slice of non-negative width k has at most k elements. -/
theorem jsSlice_length_le {α : Type} (l : List α) (start k : Int)
    (hs : 0 ≤ start) (hk : 0 ≤ k) :
    (jsSlice l start (start + k)).length ≤ k.toNat := by
  rw [jsSlice_eq_drop_take l start k hs hk]
  exact (List.length_take_le _ _)

/-- Every element of a slice is an element of the list. -/
theorem mem_of_mem_jsSlice {α : Type} {a : α} {l : List α} {start stop : Int}
    (h : a ∈ jsSlice l start stop) : a ∈ l := by
  unfold jsSlice at h
  exact List.mem_of_mem_take (List.mem_of_mem_drop h)

/-- A slice is a sublist of the list. -/
theorem jsSlice_sublist {α : Type} (l : List α) (start stop : Int) :
    (jsSlice l start stop).Sublist l := by
  unfold jsSlice
  exact (List.drop_sublist _ _).trans (List.take_sublist _ _)

/-- C2: for any owner and any page and limit at least 1, the pagination
object reports pages equal to the ceiling of total over limit, the total is
the full count of the owner documents independent of page and limit, and at
most limit conversations are returned. -/
theorem HistoryService.listConversations_pagination (st : FirestoreState)
    (u : String) (page limit : Int) (hp : 1 ≤ page) (hl : 1 ≤ limit) :
    (HistoryService.listConversations st u page limit).pagination.pages =
      ⌈((HistoryService.listConversations st u page limit).pagination.total :
        ℚ) / (limit : ℚ)⌉ ∧
    (HistoryService.listConversations st u page limit).pagination.total =
      (ConversationHistory.ownerDocs st u).length ∧
    (((HistoryService.listConversations st u page limit).conversations.length :
      Int)) ≤ limit := by
  refine ⟨rfl, rfl, ?_⟩
  have h := jsSlice_length_le
    (ConversationHistory.sortByUpdatedAtDesc
      (ConversationHistory.ownerDocs st u))
    ((page - 1) * limit) limit (mul_nonneg (by omega) (by omega)) (by omega)
  simp only [HistoryService.listConversations,
    ConversationHistory.findByUserId, List.length_map]
  omega

/-- Witness for C2 on a store holding one conversation, page 2, limit 3. -/
theorem HistoryService.listConversations_pagination_witness :
    (1 : Int) ≤ 2 ∧ (1 : Int) ≤ 3 ∧
    ((HistoryService.listConversations
        (ConversationHistory.create emptyStore ⟨"s1", "u1", none, none⟩ 1).2
        "u1" 2 3).pagination.pages =
      ⌈((HistoryService.listConversations
          (ConversationHistory.create emptyStore ⟨"s1", "u1", none, none⟩ 1).2
          "u1" 2 3).pagination.total : ℚ) / ((3 : Int) : ℚ)⌉ ∧
    (HistoryService.listConversations
        (ConversationHistory.create emptyStore ⟨"s1", "u1", none, none⟩ 1).2
        "u1" 2 3).pagination.total =
      (ConversationHistory.ownerDocs
        (ConversationHistory.create emptyStore ⟨"s1", "u1", none, none⟩ 1).2
        "u1").length ∧
    (((HistoryService.listConversations
        (ConversationHistory.create emptyStore ⟨"s1", "u1", none, none⟩ 1).2
        "u1" 2 3).conversations.length : Int)) ≤ 3) :=
  ⟨by decide, by decide,
    HistoryService.listConversations_pagination _ "u1" 2 3
      (by decide) (by decide)⟩

/-- C3: listing for an owner returns only conversations of that owner,
ordered by updatedAt descending, and the returned page is exactly the
stable-sorted owner list with the first (page minus 1) times limit records
dropped and at most limit taken. -/
theorem ConversationHistory.findByUserId_scoped (st : FirestoreState)
    (u : String) (page limit : Int) (hp : 1 ≤ page) (hl : 1 ≤ limit) :
    (∀ c ∈ (ConversationHistory.findByUserId st u page limit).1,
      c.data.userId = u) ∧
    List.Pairwise
      (fun a b : ConvRecord => b.data.updatedAt ≤ a.data.updatedAt)
      (ConversationHistory.findByUserId st u page limit).1 ∧
    (ConversationHistory.findByUserId st u page limit).1 =
      (((ConversationHistory.sortByUpdatedAtDesc
          (ConversationHistory.ownerDocs st u)).drop
            ((page - 1) * limit).toNat).take limit.toNat).map
        (fun p => ⟨p.1, p.2⟩) := by
  have hoff : (0 : Int) ≤ (page - 1) * limit :=
    mul_nonneg (by omega) (by omega)
  have hslice := jsSlice_eq_drop_take
    (ConversationHistory.sortByUpdatedAtDesc
      (ConversationHistory.ownerDocs st u))
    ((page - 1) * limit) limit hoff (by omega)
  refine ⟨?_, ?_, ?_⟩
  · intro c hc
    simp only [ConversationHistory.findByUserId] at hc
    obtain ⟨p, hmem, rfl⟩ := List.mem_map.mp hc
    have h1 : p ∈ ConversationHistory.sortByUpdatedAtDesc
        (ConversationHistory.ownerDocs st u) := mem_of_mem_jsSlice hmem
    unfold ConversationHistory.sortByUpdatedAtDesc at h1
    have h2 : p ∈ ConversationHistory.ownerDocs st u :=
      (List.mergeSort_perm _ _).mem_iff.mp h1
    unfold ConversationHistory.ownerDocs at h2
    have h3 := (List.mem_filter.mp h2).2
    simpa using h3
  · have htrans : ∀ a b c : String × Doc,
        (fun a b : String × Doc =>
          decide (b.2.updatedAt ≤ a.2.updatedAt)) a b = true →
        (fun a b : String × Doc =>
          decide (b.2.updatedAt ≤ a.2.updatedAt)) b c = true →
        (fun a b : String × Doc =>
          decide (b.2.updatedAt ≤ a.2.updatedAt)) a c = true := by
      intro a b c hab hbc
      simp only [decide_eq_true_eq] at hab hbc ⊢
      omega
    have htotal : ∀ a b : String × Doc,
        ((fun a b : String × Doc =>
          decide (b.2.updatedAt ≤ a.2.updatedAt)) a b ||
         (fun a b : String × Doc =>
          decide (b.2.updatedAt ≤ a.2.updatedAt)) b a) = true := by
      intro a b
      simp only [Bool.or_eq_true, decide_eq_true_eq]
      omega
    have hsorted := List.sorted_mergeSort htrans htotal
      (ConversationHistory.ownerDocs st u)
    have hpw : List.Pairwise
        (fun a b : String × Doc => b.2.updatedAt ≤ a.2.updatedAt)
        (ConversationHistory.sortByUpdatedAtDesc
          (ConversationHistory.ownerDocs st u)) := by
      unfold ConversationHistory.sortByUpdatedAtDesc
      exact hsorted.imp (fun h => of_decide_eq_true h)
    have hsub := jsSlice_sublist
      (ConversationHistory.sortByUpdatedAtDesc
        (ConversationHistory.ownerDocs st u))
      ((page - 1) * limit) ((page - 1) * limit + limit)
    have hpw2 := List.Pairwise.sublist hsub hpw
    show List.Pairwise _ ((jsSlice _ _ _).map _)
    exact List.pairwise_map.mpr hpw2
  · show (jsSlice _ _ _).map _ = _
    rw [hslice]

/-- Witness for C3 on a store holding conversations of two owners. -/
theorem ConversationHistory.findByUserId_scoped_witness :
    (1 : Int) ≤ 1 ∧ (1 : Int) ≤ 2 ∧
    ((∀ c ∈ (ConversationHistory.findByUserId
        (ConversationHistory.create
          (ConversationHistory.create emptyStore
            ⟨"s1", "u1", none, none⟩ 1).2
          ⟨"s2", "u2", none, none⟩ 2).2
        "u1" 1 2).1, c.data.userId = "u1") ∧
    List.Pairwise
      (fun a b : ConvRecord => b.data.updatedAt ≤ a.data.updatedAt)
      (ConversationHistory.findByUserId
        (ConversationHistory.create
          (ConversationHistory.create emptyStore
            ⟨"s1", "u1", none, none⟩ 1).2
          ⟨"s2", "u2", none, none⟩ 2).2
        "u1" 1 2).1 ∧
    (ConversationHistory.findByUserId
        (ConversationHistory.create
          (ConversationHistory.create emptyStore
            ⟨"s1", "u1", none, none⟩ 1).2
          ⟨"s2", "u2", none, none⟩ 2).2
        "u1" 1 2).1 =
      (((ConversationHistory.sortByUpdatedAtDesc
          (ConversationHistory.ownerDocs
            (ConversationHistory.create
              (ConversationHistory.create emptyStore
                ⟨"s1", "u1", none, none⟩ 1).2
              ⟨"s2", "u2", none, none⟩ 2).2
            "u1")).drop (((1 : Int) - 1) * 2).toNat).take
        ((2 : Int)).toNat).map (fun p => ⟨p.1, p.2⟩)) :=
  ⟨by decide, by decide,
    ConversationHistory.findByUserId_scoped _ "u1" 1 2 (by decide) (by decide)⟩

/-- One operation at an instant no earlier than the bound keeps the store
invariant, with the instant as the new bound. -/
theorem storeInv_execOp (st : FirestoreState) (t now : Nat) (op : HistOp)
    (h : storeInv st t) (ht : t ≤ now) :
    storeInv (execOp st op now) now := by
  cases op with
  | createOp inp =>
    intro p hp
    simp only [execOp, HistoryService.createConversation,
      ConversationHistory.create] at hp
    rcases List.mem_append.mp hp with h1 | h1
    · exact ⟨(h p h1).1, le_trans (h p h1).2 ht⟩
    · have hp2 := List.mem_singleton.mp h1
      rw [hp2]
      exact ⟨le_refl now, le_refl now⟩
  | appendOp id msgs =>
    simp only [execOp]
    rw [serviceAppend_snd st id msgs now]
    unfold ConversationHistory.appendMessages
    rcases hf : st.docs.find? (fun p => p.1 == id) with _ | q
    · rw [hf]
      intro p hp
      exact ⟨(h p hp).1, le_trans (h p hp).2 ht⟩
    · rw [hf]
      intro p hp
      obtain ⟨r, hr, hpr⟩ := List.mem_map.mp hp
      have hq : q ∈ st.docs := List.mem_of_find?_eq_some hf
      have hqinv := h q hq
      by_cases hid : (r.1 == id) = true
      · rw [← hpr, if_pos hid]
        exact ⟨le_trans hqinv.1 (le_trans hqinv.2 ht), le_refl now⟩
      · rw [← hpr, if_neg hid]
        exact ⟨(h r hr).1, le_trans (h r hr).2 ht⟩

/-- A sequence of operations at non-decreasing instants starting from a
store satisfying the invariant keeps createdAt at most updatedAt. -/
theorem storeInv_execTrace (ops : List (HistOp × Nat)) :
    ∀ (st : FirestoreState) (t : Nat), storeInv st t →
      List.Chain (fun a b : Nat => a ≤ b) t (ops.map Prod.snd) →
      ∀ p ∈ (execTrace st ops).docs, p.2.createdAt ≤ p.2.updatedAt := by
  induction ops with
  | nil =>
    intro st t h _ p hp
    exact (h p hp).1
  | cons op rest ih =>
    intro st t h hchain
    rw [List.map_cons] at hchain
    cases hchain with
    | cons hle hchain =>
      exact ih (execOp st op.1 op.2) op.2
        (storeInv_execOp st t op.2 op.1 h hle) hchain

/-- C8: after any sequence of create and append operations run at
non-decreasing instants from the empty store, every stored conversation has
updatedAt at least createdAt: create sets both to the same instant, and
every append refreshes updatedAt to the (no earlier) current instant
leaving createdAt unchanged. -/
theorem execTrace_updatedAt_ge_createdAt (ops : List (HistOp × Nat))
    (hmono : List.Chain' (fun a b : Nat => a ≤ b) (ops.map Prod.snd)) :
    ∀ p ∈ (execTrace emptyStore ops).docs,
      p.2.createdAt ≤ p.2.updatedAt := by
  have hchain : List.Chain (fun a b : Nat => a ≤ b) 0 (ops.map Prod.snd) := by
    cases hops : ops.map Prod.snd with
    | nil => exact List.Chain.nil
    | cons x xs =>
      rw [hops] at hmono
      exact List.Chain.cons (Nat.zero_le x) hmono
  refine storeInv_execTrace ops emptyStore 0 ?_ hchain
  intro p hp
  simp [emptyStore] at hp

/-- Witness for C8: a create at instant 3 followed by an append at 5. -/
theorem execTrace_updatedAt_ge_createdAt_witness :
    List.Chain' (fun a b : Nat => a ≤ b)
      (([(.createOp ⟨"s1", "u1", none, none⟩, 3),
         (.appendOp "mock-id-1" [⟨"a", "b", none, []⟩], 5)] :
        List (HistOp × Nat)).map Prod.snd) ∧
    ∀ p ∈ (execTrace emptyStore
        [(.createOp ⟨"s1", "u1", none, none⟩, 3),
         (.appendOp "mock-id-1" [⟨"a", "b", none, []⟩], 5)]).docs,
      p.2.createdAt ≤ p.2.updatedAt :=
  ⟨by simp [List.chain'_cons],
    execTrace_updatedAt_ge_createdAt
      [(.createOp ⟨"s1", "u1", none, none⟩, 3),
       (.appendOp "mock-id-1" [⟨"a", "b", none, []⟩], 5)]
      (by simp [List.chain'_cons])⟩
